import Mathlib

/-!
Verification development for the incident-timeline extraction engine
(`patterns.py`, `extractors.py`, `server.py`).

Text is modelled as `List Char` (ASCII assumptions: Python's `str.lower` /
`str.upper` are modelled character-wise, and the regex classes `\d`, `\w`,
`\s` are modelled by their ASCII meanings, which covers every string the
repository's patterns and tests exercise).

The regular expressions of `patterns.py` are small enough that each one is
embedded as a dedicated scanning function with Python `re` semantics:
leftmost match, greedy quantifiers with backtracking, word boundaries and
the lookaround assertions written in the pattern.
-/

namespace IncidentTimeline

/-! ## Character classes and basic string utilities -/

/-- ASCII model of the regex class `\w` (letters, digits, underscore). -/
def isWordChar (c : Char) : Bool :=
  c.isAlphanum || c == '_'

/-- ASCII model of the regex class `\s` / Python `str.strip` whitespace. -/
def isSpaceChar (c : Char) : Bool :=
  c == ' ' || c == '\t' || c == '\n' || c == '\r' || c == '\x0b' || c == '\x0c'

/-- Character-wise model of Python `str.lower` (ASCII). -/
def lowerStr (cs : List Char) : List Char :=
  cs.map Char.toLower

/-- Character-wise model of Python `str.upper` (ASCII). -/
def upperStr (cs : List Char) : List Char :=
  cs.map Char.toUpper

/-- Python `text[i]` as an optional lookup. -/
def charAt (cs : List Char) (i : Nat) : Option Char :=
  cs[i]?

/-- Does the (optional) character satisfy `p`?  `none` (out of range) is `false`. -/
def optHolds (p : Char → Bool) : Option Char → Bool
  | some c => p c
  | none => false

/-- Is the character at index `i` a `\w` character (false past either end)? -/
def wordAt (cs : List Char) (i : Nat) : Bool :=
  optHolds isWordChar (charAt cs i)

/-- The character before index `i`, if any. -/
def prevChar (cs : List Char) (i : Nat) : Option Char :=
  if i = 0 then none else charAt cs (i - 1)

/-- `\b` holds before index `i` when the first matched character is a word
character: the preceding character must not be a word character. -/
def prevNotWord (cs : List Char) (i : Nat) : Bool :=
  !(optHolds isWordChar (prevChar cs i))

/-- General `\b` test at position `i` (between `cs[i-1]` and `cs[i]`):
exactly one side is a word character. -/
def boundaryAt (cs : List Char) (i : Nat) : Bool :=
  optHolds isWordChar (prevChar cs i) != wordAt cs i

/-- Length of the maximal run of characters satisfying `p` starting at `i`. -/
def runLen (p : Char → Bool) (cs : List Char) (i : Nat) : Nat :=
  ((cs.drop i).takeWhile p).length

/-- The slice `cs[i:j]` (Python slicing semantics for `i ≤ j`). -/
def slice (cs : List Char) (i j : Nat) : List Char :=
  (cs.drop i).take (j - i)

/-- Python `str.find`: index of the first occurrence of `needle`, if any. -/
def strFind : List Char → List Char → Option Nat
  | [], needle => if needle = [] then some 0 else none
  | c :: t, needle =>
    if needle.isPrefixOf (c :: t) then some 0
    else (strFind t needle).map (· + 1)

/-- Python substring containment `needle in hay` (contiguous substring). -/
def isSubstring (needle : List Char) : List Char → Bool
  | [] => needle.isEmpty
  | c :: t => needle.isPrefixOf (c :: t) || isSubstring needle t

/-- Python `str.strip()` (both ends, whitespace). -/
def pyStrip (cs : List Char) : List Char :=
  ((cs.dropWhile isSpaceChar).reverse.dropWhile isSpaceChar).reverse

/-- Python `str.split('\n')` (keeps empty segments, total count = newlines + 1). -/
def splitNl : List Char → List (List Char)
  | [] => [[]]
  | c :: t =>
    if c == '\n' then [] :: splitNl t
    else
      match splitNl t with
      | h :: rest => (c :: h) :: rest
      | [] => [[c]]

/-- Python `int` on the digit-only strings produced by the IP pattern:
a nonempty all-digit string parses to its decimal value, anything else
raises `ValueError` (modelled as `none`). -/
def pyIntNat (cs : List Char) : Option Nat :=
  if cs ≠ [] ∧ cs.all Char.isDigit then
    some (cs.foldl (fun a c => 10 * a + (c.toNat - '0'.toNat)) 0)
  else none

/-- Python `str.split('.')`. -/
def splitDot : List Char → List (List Char)
  | [] => [[]]
  | c :: t =>
    if c == '.' then [] :: splitDot t
    else
      match splitDot t with
      | h :: rest => (c :: h) :: rest
      | [] => [[c]]

/-! ## Timestamp patterns (`patterns.py`, `TIMESTAMP_PATTERNS`)

Each matcher returns, for a start index `i`, the end index of the match
(Python `match.end()`), or `none` when no match starts at `i`.  The
`search*` functions scan start positions left to right, mirroring
`re.search` (leftmost match wins), and return `match.group()`. -/

def isDigit02 (c : Char) : Bool := '0' ≤ c && c ≤ '2'

def isDigit05 (c : Char) : Bool := '0' ≤ c && c ≤ '5'

/-- Match attempt at `i` for `full_datetime`:
`\b(\d{4}-\d{2}-\d{2})\s+(\d{2}:\d{2}(?::\d{2})?)\b`. -/
def matchFullDatetimeAt (cs : List Char) (i : Nat) : Option Nat :=
  if prevNotWord cs i
      && optHolds Char.isDigit (charAt cs i)
      && optHolds Char.isDigit (charAt cs (i+1))
      && optHolds Char.isDigit (charAt cs (i+2))
      && optHolds Char.isDigit (charAt cs (i+3))
      && optHolds (· == '-') (charAt cs (i+4))
      && optHolds Char.isDigit (charAt cs (i+5))
      && optHolds Char.isDigit (charAt cs (i+6))
      && optHolds (· == '-') (charAt cs (i+7))
      && optHolds Char.isDigit (charAt cs (i+8))
      && optHolds Char.isDigit (charAt cs (i+9)) then
    let s := runLen isSpaceChar cs (i+10)
    if s = 0 then none
    else
      let j := i + 10 + s
      if optHolds Char.isDigit (charAt cs j)
          && optHolds Char.isDigit (charAt cs (j+1))
          && optHolds (· == ':') (charAt cs (j+2))
          && optHolds Char.isDigit (charAt cs (j+3))
          && optHolds Char.isDigit (charAt cs (j+4)) then
        -- greedy optional `(?::\d{2})?`, then `\b`; on failure fall back to
        -- the branch without seconds (then `\b` is checked after the minutes)
        if optHolds (· == ':') (charAt cs (j+5))
            && optHolds Char.isDigit (charAt cs (j+6))
            && optHolds Char.isDigit (charAt cs (j+7))
            && !(wordAt cs (j+8)) then
          some (j + 8)
        else if !(wordAt cs (j+5)) then some (j + 5)
        else none
      else none
  else none

/-- Negative lookbehind `(?<![:\w])` of the two time-only patterns. -/
def timeLookbehind (cs : List Char) (i : Nat) : Bool :=
  !(optHolds (fun c => c == ':' || isWordChar c) (prevChar cs i))

/-- Shared tail `:([0-5]\d):([0-5]\d)(?!:\d)\b` for `time_with_seconds`,
starting just after the hour field at index `j`. -/
def secondsTail (cs : List Char) (j : Nat) : Option Nat :=
  if optHolds (· == ':') (charAt cs j)
      && optHolds isDigit05 (charAt cs (j+1))
      && optHolds Char.isDigit (charAt cs (j+2))
      && optHolds (· == ':') (charAt cs (j+3))
      && optHolds isDigit05 (charAt cs (j+4))
      && optHolds Char.isDigit (charAt cs (j+5))
      && !(optHolds (· == ':') (charAt cs (j+6)) && optHolds Char.isDigit (charAt cs (j+7)))
      && !(wordAt cs (j+6)) then
    some (j + 6)
  else none

/-- Shared tail `:([0-5]\d)(?!:\d)\b` for `simple_time`. -/
def minutesTail (cs : List Char) (j : Nat) : Option Nat :=
  if optHolds (· == ':') (charAt cs j)
      && optHolds isDigit05 (charAt cs (j+1))
      && optHolds Char.isDigit (charAt cs (j+2))
      && !(optHolds (· == ':') (charAt cs (j+3)) && optHolds Char.isDigit (charAt cs (j+4)))
      && !(wordAt cs (j+3)) then
    some (j + 3)
  else none

/-- Greedy `([0-2]?\d)` with backtracking: try the two-character hour first,
then the one-character hour, each continued by `tail`. -/
def hourThen (cs : List Char) (i : Nat) (tail : Nat → Option Nat) : Option Nat :=
  match
    (if optHolds isDigit02 (charAt cs i) && optHolds Char.isDigit (charAt cs (i+1)) then
      tail (i + 2)
    else none) with
  | some e => some e
  | none =>
    if optHolds Char.isDigit (charAt cs i) then tail (i + 1) else none

/-- Match attempt at `i` for `time_with_seconds`:
`(?<![:\w])([0-2]?\d):([0-5]\d):([0-5]\d)(?!:\d)\b`. -/
def matchTimeWithSecondsAt (cs : List Char) (i : Nat) : Option Nat :=
  if timeLookbehind cs i then hourThen cs i (secondsTail cs) else none

/-- Match attempt at `i` for `simple_time`:
`(?<![:\w])([0-2]?\d):([0-5]\d)(?!:\d)\b`. -/
def matchSimpleTimeAt (cs : List Char) (i : Nat) : Option Nat :=
  if timeLookbehind cs i then hourThen cs i (minutesTail cs) else none

/-- `re.search` position scan: first start index (with match end) at which
the match attempt succeeds. -/
def searchPos (matchAt : List Char → Nat → Option Nat) (cs : List Char) :
    Option (Nat × Nat) :=
  go 0 (cs.length + 1)
where
  go (i fuel : Nat) : Option (Nat × Nat) :=
    match fuel with
    | 0 => none
    | fuel + 1 =>
      if i ≤ cs.length then
        match matchAt cs i with
        | some e => some (i, e)
        | none => go (i + 1) fuel
      else none

/-- `re.search(pattern, text)` returning `match.group()`. -/
def searchStr (matchAt : List Char → Nat → Option Nat) (cs : List Char) :
    Option (List Char) :=
  (searchPos matchAt cs).map fun p => slice cs p.1 p.2

def searchFullDatetime (cs : List Char) : Option (List Char) :=
  searchStr matchFullDatetimeAt cs

def searchTimeWithSeconds (cs : List Char) : Option (List Char) :=
  searchStr matchTimeWithSecondsAt cs

def searchSimpleTime (cs : List Char) : Option (List Char) :=
  searchStr matchSimpleTimeAt cs

/-- `TIMESTAMP_PATTERNS.values()` in registry (insertion) order, each entry
embodied by its search function. -/
def TIMESTAMP_PATTERNS : List (List Char → Option (List Char)) :=
  [searchFullDatetime, searchTimeWithSeconds, searchSimpleTime]

/-! ## `_is_likely_timestamp` and `_find_timestamp` (`extractors.py`) -/

/-- The `false_positive_words` list of `_is_likely_timestamp`. -/
def FALSE_POSITIVE_WORDS : List (List Char) :=
  ["ratio".data, "version".data, "scaled".data]

/-- The `~20` characters of lowered text before index `idx`:
`text_lower[max(0, idx-20):idx]`. -/
def windowBefore (text : List Char) (idx : Nat) : List Char :=
  slice (lowerStr text) (idx - 20) idx

/-- Does the context window contain one of the trigger words? -/
def containsTrigger (ctx : List Char) : Bool :=
  FALSE_POSITIVE_WORDS.any (fun w => isSubstring w ctx)

/-- `_is_likely_timestamp(text, timestamp)`: context filtering anchored at
`text.find(timestamp)` (Python `find` returning `-1`, i.e. `none`, skips the
check, as does a hit at index `0`). -/
def is_likely_timestamp (text timestamp : List Char) : Bool :=
  match strFind text timestamp with
  | some idx =>
    if 0 < idx then !(containsTrigger (windowBefore text idx)) else true
  | none => true

/-- The pattern loop of `_find_timestamp`: on a match that the filter
rejects, the loop continues with the next pattern. -/
def findTimestampAux (text : List Char) :
    List (List Char → Option (List Char)) → Option (List Char)
  | [] => none
  | p :: ps =>
    match p text with
    | some m => if is_likely_timestamp text m then some m else findTimestampAux text ps
    | none => findTimestampAux text ps

/-- `_find_timestamp(text)`. -/
def find_timestamp (text : List Char) : Option (List Char) :=
  findTimestampAux text TIMESTAMP_PATTERNS

/-! ## Actor patterns (`patterns.py`, `ACTOR_PATTERNS`)

These searches return `match.group(1)` directly, as `_find_actor` uses it. -/

/-- Character class `[\w.-]` of the mention pattern. -/
def isMentionChar (c : Char) : Bool :=
  isWordChar c || c == '.' || c == '-'

/-- Match attempt at `i` for `mention`: `@([\w.-]+)`, returning the capture
(start, end) of group 1. -/
def matchMentionAt (cs : List Char) (i : Nat) : Option (Nat × Nat) :=
  if optHolds (· == '@') (charAt cs i) then
    let r := runLen isMentionChar cs (i + 1)
    if r = 0 then none else some (i + 1, i + 1 + r)
  else none

/-- ASCII `[a-z]` / `[A-Z]` (Lean's `Char.isLower`/`Char.isUpper` are ASCII). -/
def isLowerAZ (c : Char) : Bool := c.isLower

def isUpperAZ (c : Char) : Bool := c.isUpper

/-- Match attempt at `i` for `name_colon`:
`\b([A-Z][a-z]+(?:\s+[A-Z][a-z]+)?):` returning group 1's span.  The greedy
optional second word is tried first; all runs are maximal because every
continuation after a run starts with a character outside the run's class. -/
def matchNameColonAt (cs : List Char) (i : Nat) : Option (Nat × Nat) :=
  if prevNotWord cs i && optHolds isUpperAZ (charAt cs i) then
    let r1 := runLen isLowerAZ cs (i + 1)
    if r1 = 0 then none
    else
      let j := i + 1 + r1
      let s := runLen isSpaceChar cs j
      let withSecond : Option (Nat × Nat) :=
        if s ≠ 0 && optHolds isUpperAZ (charAt cs (j + s)) then
          let r2 := runLen isLowerAZ cs (j + s + 1)
          if r2 ≠ 0 && optHolds (· == ':') (charAt cs (j + s + 1 + r2)) then
            some (i, j + s + 1 + r2)
          else none
        else none
      match withSecond with
      | some p => some p
      | none => if optHolds (· == ':') (charAt cs j) then some (i, j) else none
  else none

/-- `re.search` over group-capturing match attempts. -/
def searchGroup (matchAt : List Char → Nat → Option (Nat × Nat)) (cs : List Char) :
    Option (List Char) :=
  go 0 (cs.length + 1)
where
  go (i fuel : Nat) : Option (List Char) :=
    match fuel with
    | 0 => none
    | fuel + 1 =>
      if i ≤ cs.length then
        match matchAt cs i with
        | some p => some (slice cs p.1 p.2)
        | none => go (i + 1) fuel
      else none

def searchMention (cs : List Char) : Option (List Char) :=
  searchGroup matchMentionAt cs

def searchNameColon (cs : List Char) : Option (List Char) :=
  searchGroup matchNameColonAt cs

/-- `ACTOR_PATTERNS.values()` in registry order. -/
def ACTOR_PATTERNS : List (List Char → Option (List Char)) :=
  [searchMention, searchNameColon]

/-! ## `_is_likely_actor` and `_find_actor` (`extractors.py`) -/

/-- The `common_labels` list. -/
def COMMON_LABELS : List (List Char) :=
  ["time".data, "error".data, "status".data, "note".data, "warning".data,
   "info".data, "debug".data, "system".data]

/-- The `common_tlds` list. -/
def COMMON_TLDS : List (List Char) :=
  [".com".data, ".org".data, ".net".data, ".io".data, ".co".data,
   ".edu".data, ".gov".data]

/-- `_is_likely_actor(actor)`. -/
def is_likely_actor (actor : List Char) : Bool :=
  if COMMON_LABELS.contains (lowerStr actor) then false
  else if COMMON_TLDS.any (fun t => t.isSuffixOf (lowerStr actor)) then false
  else true

/-- The pattern loop of `_find_actor`: on a filter rejection, the loop
continues with the next pattern. -/
def findActorAux (text : List Char) :
    List (List Char → Option (List Char)) → Option (List Char)
  | [] => none
  | p :: ps =>
    match p text with
    | some a => if is_likely_actor a then some a else findActorAux text ps
    | none => findActorAux text ps

/-- `_find_actor(text)`. -/
def find_actor (text : List Char) : Option (List Char) :=
  findActorAux text ACTOR_PATTERNS

/-! ## `extract_timeline` (`extractors.py`) -/

/-- One extracted event: `{'time': ..., 'text': ..., 'actor'?: ...}`. -/
structure Event where
  time : List Char
  text : List Char
  actor : Option (List Char)
deriving DecidableEq, Repr

/-- `extract_timeline(text)`: split into stripped lines, skip blank lines and
lines without an accepted timestamp, and record one event per surviving line. -/
def extract_timeline (text : List Char) : List Event :=
  (splitNl (pyStrip text)).filterMap fun rawLine =>
    let line := pyStrip rawLine
    if line = [] then none
    else
      match find_timestamp line with
      | none => none
      | some ts => some { time := ts, text := pyStrip line, actor := find_actor line }

/-! ## `identify_actions` (`extractors.py`, with `ACTION_KEYWORDS`) -/

/-- One identified action: `{'action': ..., 'category': ..., 'context': ...}`. -/
structure Action where
  action : List Char
  category : List Char
  context : List Char
deriving DecidableEq, Repr

def INVESTIGATION_KEYWORDS : List (List Char) :=
  ["investigating".data, "investigated".data, "checking".data, "checked".data,
   "examining".data, "examined".data, "analyzing".data, "analyzed".data,
   "reviewing".data, "reviewed".data, "debugging".data, "debugged".data,
   "tracing".data, "traced".data, "monitoring".data, "monitored".data,
   "watching".data]

def REMEDIATION_KEYWORDS : List (List Char) :=
  ["deploying".data, "deployed".data, "rolling back".data, "rolled back".data,
   "reverting".data, "reverted".data, "restarting".data, "restarted".data,
   "rebooting".data, "rebooted".data, "fixing".data, "fixed".data,
   "patching".data, "patched".data, "updating".data, "updated".data,
   "scaling".data, "scaled".data, "killing".data, "killed".data,
   "stopping".data, "stopped".data]

def COMMUNICATION_KEYWORDS : List (List Char) :=
  ["notifying".data, "notified".data, "alerting".data, "alerted".data,
   "paging".data, "paged".data, "escalating".data, "escalated".data,
   "confirming".data, "confirmed".data, "acknowledging".data,
   "acknowledged".data, "reporting".data, "reported".data]

def STATUS_KEYWORDS : List (List Char) :=
  ["resolving".data, "resolved".data, "mitigating".data, "mitigated".data,
   "completing".data, "completed".data, "starting".data, "started".data,
   "initiating".data, "initiated".data]

/-- `ACTION_KEYWORDS.items()` in registry (insertion) order. -/
def ACTION_KEYWORDS : List (List Char × List (List Char)) :=
  [("investigation".data, INVESTIGATION_KEYWORDS),
   ("remediation".data, REMEDIATION_KEYWORDS),
   ("communication".data, COMMUNICATION_KEYWORDS),
   ("status".data, STATUS_KEYWORDS)]

/-- The `if actions and actions[-1]['context'] == line` test. -/
def lastContextIs (actions : List Action) (line : List Char) : Bool :=
  match actions.getLast? with
  | some a => a.context == line
  | none => false

/-- The category loop of `identify_actions` for one line: within a category,
append the first keyword contained in the folded line; after each category,
stop if the last recorded action's context equals the current line. -/
def actionCatLoop (line lineLower : List Char) :
    List (List Char × List (List Char)) → List Action → List Action
  | [], actions => actions
  | (category, keywords) :: rest, actions =>
    let actions' :=
      match keywords.find? (fun k => isSubstring k lineLower) with
      | some k => actions ++ [{ action := k, category := category, context := line }]
      | none => actions
    if lastContextIs actions' line then actions'
    else actionCatLoop line lineLower rest actions'

/-- `identify_actions(text)`. -/
def identify_actions (text : List Char) : List Action :=
  (splitNl (pyStrip text)).foldl
    (fun actions rawLine =>
      let line := pyStrip rawLine
      if line = [] then actions
      else actionCatLoop line (lowerStr line) ACTION_KEYWORDS actions)
    []

/-! ## Entity patterns (`patterns.py`, `ENTITY_PATTERNS`)

Each scanner follows `re.finditer`: try a match at every position left to
right; on success record `match.group(1)` and resume at the match's end. -/

/-- IP pattern `\b(\d{1,3}\.\d{1,3}\.\d{1,3}\.\d{1,3})\b`: greedy `\d{1,3}`
tries three digits, then two, then one, backtracking into `cont`. -/
def ipGroup (cs : List Char) (p : Nat) (cont : Nat → Option Nat) : Option Nat :=
  match (if 3 ≤ runLen Char.isDigit cs p then cont (p + 3) else none) with
  | some e => some e
  | none =>
    match (if 2 ≤ runLen Char.isDigit cs p then cont (p + 2) else none) with
    | some e => some e
    | none => if 1 ≤ runLen Char.isDigit cs p then cont (p + 1) else none

/-- Match attempt at `i` for the IP pattern; returns the end index. -/
def matchIpAt (cs : List Char) (i : Nat) : Option Nat :=
  if prevNotWord cs i then
    ipGroup cs i fun q1 =>
      if optHolds (· == '.') (charAt cs q1) then
        ipGroup cs (q1 + 1) fun q2 =>
          if optHolds (· == '.') (charAt cs q2) then
            ipGroup cs (q2 + 1) fun q3 =>
              if optHolds (· == '.') (charAt cs q3) then
                ipGroup cs (q3 + 1) fun q4 =>
                  if !(wordAt cs q4) then some q4 else none
              else none
          else none
      else none
  else none

/-- Character class `[a-z0-9_-]` of the service pattern's middle. -/
def isServiceChar (c : Char) : Bool :=
  isLowerAZ c || c.isDigit || c == '_' || c == '-'

/-- The suffix alternation `(?:service|api|worker|job|daemon)` in pattern order. -/
def SERVICE_SUFFIXES : List (List Char) :=
  ["service".data, "api".data, "worker".data, "job".data, "daemon".data]

/-- Try the suffix alternation at `q`, requiring the final `\b` after it. -/
def serviceSuffixAt (cs : List Char) (q : Nat) : Option Nat :=
  (SERVICE_SUFFIXES.filterMap fun sfx =>
    if sfx.isPrefixOf (cs.drop q) && !(wordAt cs (q + sfx.length)) then
      some (q + sfx.length)
    else none).head?

/-- Greedy descent over the star's length `k`: the star `[a-z0-9_-]*` tries
its maximal run first and backtracks one character at a time. -/
def serviceStar (cs : List Char) (base : Nat) : Nat → Option Nat
  | 0 => serviceSuffixAt cs base
  | k + 1 =>
    match serviceSuffixAt cs (base + k + 1) with
    | some e => some e
    | none => serviceStar cs base k

/-- Match attempt at `i` for the service pattern
`\b([a-z][a-z0-9_-]*(?:service|api|worker|job|daemon))\b`. -/
def matchServiceAt (cs : List Char) (i : Nat) : Option Nat :=
  if prevNotWord cs i && optHolds isLowerAZ (charAt cs i) then
    serviceStar cs (i + 1) (runLen isServiceChar cs (i + 1))
  else none

/-- Character class `[a-z0-9-]` of the domain pattern's labels. -/
def isDomainChar (c : Char) : Bool :=
  isLowerAZ c || c.isDigit || c == '-'

/-- Start positions of the labels reachable from the cursor by repeating
`\.[a-z0-9-]+` (the starred group), in text order. -/
def domainChain (cs : List Char) (cursor : Nat) : Nat → List Nat
  | 0 => []
  | fuel + 1 =>
    if optHolds (· == '.') (charAt cs cursor) && runLen isDomainChar cs (cursor + 1) ≠ 0 then
      let s := cursor + 1
      s :: domainChain cs (s + runLen isDomainChar cs s) fuel
    else []

/-- Final `\.([a-z]{2,})\b` attempt with the TLD starting at label start `s`:
the greedy `[a-z]{2,}` takes the maximal letter run (any shorter run is
followed by a letter, which is a word character, so `\b` would fail). -/
def domainTldAt (cs : List Char) (s : Nat) : Option Nat :=
  let p := runLen isLowerAZ cs s
  if 2 ≤ p && !(wordAt cs (s + p)) then some (s + p) else none

/-- Match attempt at `i` for the domain pattern
`\b([a-z0-9-]+(?:\.[a-z0-9-]+)*\.[a-z]{2,})\b`.  The star is greedy, so the
final `\.tld` is tried at the last chain label first, walking backwards. -/
def matchDomainAt (cs : List Char) (i : Nat) : Option Nat :=
  if boundaryAt cs i && optHolds isDomainChar (charAt cs i) then
    let r0 := runLen isDomainChar cs i
    let chain := domainChain cs (i + r0) (cs.length + 1)
    (chain.reverse.filterMap (domainTldAt cs)).head?
  else none

/-- `re.finditer`, recording `(start, end)` spans: scan left to right and
resume after each (nonempty) match. -/
def finditer (matchAt : List Char → Nat → Option Nat) (cs : List Char) :
    List (Nat × Nat) :=
  go 0 (cs.length + 1)
where
  go (i fuel : Nat) : List (Nat × Nat) :=
    match fuel with
    | 0 => []
    | fuel + 1 =>
      if i ≤ cs.length then
        match matchAt cs i with
        | some e => (i, e) :: go (max e (i + 1)) fuel
        | none => go (i + 1) fuel
      else []

/-- All IP matches of the text (`match.group(1)` strings), in scan order. -/
def ipScan (cs : List Char) : List (List Char) :=
  (finditer matchIpAt cs).map fun p => slice cs p.1 p.2

/-- All service matches of the (already lowered) text, in scan order. -/
def serviceScan (cs : List Char) : List (List Char) :=
  (finditer matchServiceAt cs).map fun p => slice cs p.1 p.2

/-- All domain matches of the (already lowered) text, in scan order. -/
def domainScan (cs : List Char) : List (List Char) :=
  (finditer matchDomainAt cs).map fun p => slice cs p.1 p.2

/-! ## `_is_valid_ip`, `_is_likely_domain`, `extract_entities` (`extractors.py`) -/

/-- `_is_valid_ip(ip)`: every dot-separated octet parses to an integer in
`[0, 255]`; a parse failure (`ValueError`) yields `False`. -/
def is_valid_ip (ip : List Char) : Bool :=
  (splitDot ip).all fun octet =>
    match pyIntNat octet with
    | some v => v ≤ 255
    | none => false

/-- The `false_positives` placeholder list of `_is_likely_domain`. -/
def DOMAIN_FALSE_POSITIVES : List (List Char) :=
  ["example.com".data, "test.com".data, "localhost.local".data]

/-- `_is_likely_domain(domain)`. -/
def is_likely_domain (domain : List Char) : Bool :=
  if domain.length < 5 then false
  else if DOMAIN_FALSE_POSITIVES.contains domain then false
  else true

/-- The entity sets returned by `extract_entities`. -/
structure EntitySet where
  services : List (List Char)
  ips : List (List Char)
  domains : List (List Char)
deriving DecidableEq, Repr

/-- `extract_entities(text)`: three independent whole-text scans, each
appending values not already present (IPs also range-validated, domains also
length/placeholder-filtered). -/
def extract_entities (text : List Char) : EntitySet :=
  let textLower := lowerStr text
  let services := (serviceScan textLower).foldl
    (fun acc s => if s ∉ acc then acc ++ [s] else acc) []
  let ips := (ipScan text).foldl
    (fun acc ip => if is_valid_ip ip ∧ ip ∉ acc then acc ++ [ip] else acc) []
  let domains := (domainScan textLower).foldl
    (fun acc d => if is_likely_domain d ∧ d ∉ acc then acc ++ [d] else acc) []
  { services := services, ips := ips, domains := domains }

/-! ## `detect_severity` (`extractors.py`, with `SEVERITY_KEYWORDS`) -/

def CRITICAL_KEYWORDS : List (List Char) :=
  ["critical".data, "down".data, "outage".data, "offline".data,
   "unavailable".data, "total failure".data, "complete loss".data,
   "service down".data]

def HIGH_KEYWORDS : List (List Char) :=
  ["degraded".data, "slow".data, "timeout".data, "elevated error".data,
   "high error".data, "error rate".data, "performance issue".data,
   "jumped".data, "spike".data, "surged".data]

def MEDIUM_KEYWORDS : List (List Char) :=
  ["intermittent".data, "occasional".data, "sporadic".data,
   "some users".data, "affecting some".data]

def LOW_KEYWORDS : List (List Char) :=
  ["minor".data, "cosmetic".data, "edge case".data, "rare".data]

/-- `SEVERITY_KEYWORDS.items()` in priority (insertion) order. -/
def SEVERITY_KEYWORDS : List (List Char × List (List Char)) :=
  [("critical".data, CRITICAL_KEYWORDS), ("high".data, HIGH_KEYWORDS),
   ("medium".data, MEDIUM_KEYWORDS), ("low".data, LOW_KEYWORDS)]

/-- The result of `detect_severity`. -/
structure SeverityResult where
  level : List Char
  confidence : List Char
  indicators : List (List Char)
deriving DecidableEq, Repr

/-- Keywords of one level collected by the scoring loop, in list order. -/
def severityMatches (textLower : List Char) (keywords : List (List Char)) :
    List (List Char) :=
  keywords.filter (fun k => isSubstring k textLower)

/-- `detect_severity(text)`: collect matches per level, pick the highest
non-empty level's list as indicators, derive confidence from its count. -/
def detect_severity (text : List Char) : SeverityResult :=
  let textLower := lowerStr text
  let critical := severityMatches textLower CRITICAL_KEYWORDS
  let high := severityMatches textLower HIGH_KEYWORDS
  let medium := severityMatches textLower MEDIUM_KEYWORDS
  let low := severityMatches textLower LOW_KEYWORDS
  let levelIndicators :=
    if critical ≠ [] then ("critical".data, critical)
    else if high ≠ [] then ("high".data, high)
    else if medium ≠ [] then ("medium".data, medium)
    else if low ≠ [] then ("low".data, low)
    else ("unknown".data, [])
  let indicators := levelIndicators.2
  let confidence :=
    if 3 ≤ indicators.length then ("high".data)
    else if 1 ≤ indicators.length then ("medium".data)
    else ("low".data)
  { level := levelIndicators.1, confidence := confidence, indicators := indicators }

/-! ## `generate_summary` (`extractors.py`) -/

/-- The result of `generate_summary`. -/
structure Summary where
  timeline : List Event
  actions : List Action
  entities : EntitySet
  severity : SeverityResult
  summary_text : List Char
deriving DecidableEq, Repr

/-- Decimal rendering of a count, as Python's string formatting does. -/
def natStr (n : Nat) : List Char :=
  (Nat.repr n).data

/-- The `action_categories` tally: a Python dict keyed by category preserves
first-seen insertion order; repeated keys increment in place. -/
def bumpCategory : List (List Char × Nat) → List Char → List (List Char × Nat)
  | [], c => [(c, 1)]
  | (k, v) :: rest, c =>
    if k == c then (k, v + 1) :: rest else (k, v) :: bumpCategory rest c

/-- The conditional `summary_parts` assembly of `generate_summary`. -/
def summaryParts (timeline : List Event) (actions : List Action)
    (entities : EntitySet) (severity : SeverityResult) : List (List Char) :=
  let severityParts :=
    if severity.level ≠ "unknown".data then
      ["Severity: ".data ++ upperStr severity.level
        ++ " (confidence: ".data ++ severity.confidence ++ ")".data]
    else []
  let timelineParts :=
    match timeline with
    | [] => []
    | first :: _ =>
      (["Timeline: ".data ++ natStr timeline.length ++ " events recorded".data])
      ++ (if first.time ≠ [] then ["  First event: ".data ++ first.time] else [])
      ++ (match timeline.getLast? with
          | some last => if last.time ≠ [] then ["  Last event: ".data ++ last.time] else []
          | none => [])
  let actionParts :=
    if actions ≠ [] then
      let categories := actions.foldl (fun m a => bumpCategory m a.category) []
      (["Actions: ".data ++ natStr actions.length ++ " total".data])
      ++ categories.map (fun p => "  ".data ++ p.1 ++ ": ".data ++ natStr p.2)
    else []
  let entityCounts :=
    ([("services".data, entities.services.length), ("ips".data, entities.ips.length),
      ("domains".data, entities.domains.length)].filter (fun p => p.2 ≠ 0))
  let entityParts :=
    if entityCounts ≠ [] then
      ["Entities involved:".data]
      ++ entityCounts.map (fun p => "  ".data ++ p.1 ++ ": ".data ++ natStr p.2)
    else []
  severityParts ++ timelineParts ++ actionParts ++ entityParts

/-- `generate_summary(text)`: run the four extractors on the same text and
render the digest. -/
def generate_summary (text : List Char) : Summary :=
  let timeline := extract_timeline text
  let actions := identify_actions text
  let entities := extract_entities text
  let severity := detect_severity text
  let parts := summaryParts timeline actions entities severity
  { timeline := timeline, actions := actions, entities := entities,
    severity := severity,
    summary_text :=
      if parts ≠ [] then List.intercalate ("\n".data) parts
      else ("No significant data extracted".data) }

/-! ## Hosting layer (`server.py`, `call_tool`)

The argument bundle is modelled by its only recognized key (`text`, present
or absent), and the handler's value before JSON serialization by a sum type:
the `err` constructor is produced without invoking any engine operation,
while each other constructor carries the result of exactly the one engine
operation the route invokes. -/

/-- The `arguments` dict, restricted to the `text` key (`none` = key absent). -/
structure ToolArgs where
  text : Option String
deriving DecidableEq, Repr

/-- The handler's outcome before JSON serialization. -/
inductive ToolResult where
  | err (msg : String)
  | timelineResult (r : List Event)
  | actionsResult (r : List Action)
  | entitiesResult (r : EntitySet)
  | severityResult (r : SeverityResult)
  | summaryResult (r : Summary)
deriving DecidableEq, Repr

/-- `call_tool(name, arguments)`: `text = arguments.get("text", "")`; an
empty (or missing, hence defaulted) text short-circuits into the structured
error before any routing; otherwise route on the tool name. -/
def call_tool (name : String) (arguments : ToolArgs) : ToolResult :=
  let text := arguments.text.getD ("")
  if text = "" then .err ("No text provided")
  else if name = "extract_timeline" then .timelineResult (extract_timeline text.data)
  else if name = "identify_actions" then .actionsResult (identify_actions text.data)
  else if name = "extract_entities" then .entitiesResult (extract_entities text.data)
  else if name = "detect_severity" then .severityResult (detect_severity text.data)
  else if name = "generate_summary" then .summaryResult (generate_summary text.data)
  else .err ("Unknown tool: " ++ name)

/-! ## Specification-side definitions

These follow the spec's wording and are compared against the embedded code
in the claim theorems. -/

/-- First-occurrence order with deduplication, written the canonical way:
keep each value's first occurrence, erase the rest. -/
def keepFirsts {α : Type} [DecidableEq α] : List α → List α
  | [] => []
  | x :: xs => x :: keepFirsts (xs.filter (fun y => decide (y ≠ x)))
termination_by l => l.length
decreasing_by
  simp only [List.length_cons]
  exact Nat.lt_succ_of_le (List.length_filter_le _ _)

/-- Confidence derived purely from the indicator count (spec 4.7):
`≥3 → high`, `1–2 → medium`, `0 → low`. -/
def confFromCount (n : Nat) : List Char :=
  if 3 ≤ n then ("high".data) else if 1 ≤ n then ("medium".data) else ("low".data)

/-- `detectSeverity` as the spec words it: the first level in priority order
with a non-empty collected keyword list wins; its list is the indicators. -/
def detect_severity_spec (text : List Char) : SeverityResult :=
  let textLower := lowerStr text
  match (SEVERITY_KEYWORDS.filterMap fun lk =>
      let m := severityMatches textLower lk.2
      if m ≠ [] then some (lk.1, m) else none).head? with
  | some lvlm =>
    { level := lvlm.1, confidence := confFromCount lvlm.2.length, indicators := lvlm.2 }
  | none =>
    { level := "unknown".data, confidence := confFromCount 0, indicators := [] }

/-- The claim's shape requirement on a reported IP string: four dot-separated
groups, each parsing as an integer in `[0, 255]`. -/
def ipWellFormed (s : List Char) : Bool :=
  (splitDot s).length == 4 && is_valid_ip s

/-- A pattern's first match filtered by the false-positive test (the body of
one iteration of the `_find_timestamp` / `_find_actor` loops). -/
def acceptedMatch (accept : List Char → Bool) (text : List Char)
    (p : List Char → Option (List Char)) : Option (List Char) :=
  match p text with
  | some m => if accept m then some m else none
  | none => none

/-! ## Helper lemmas -/

theorem findTimestampAux_eq_filterMap_head (text : List Char)
    (ps : List (List Char → Option (List Char))) :
    findTimestampAux text ps =
      (ps.filterMap (acceptedMatch (is_likely_timestamp text) text)).head? := by
  induction ps with
  | nil => rfl
  | cons p ps ih =>
    simp only [findTimestampAux, List.filterMap_cons, acceptedMatch]
    cases hp : p text with
    | none => simpa using ih
    | some m =>
      by_cases h : is_likely_timestamp text m
      · simp [h]
      · simpa [h] using ih

theorem findActorAux_eq_filterMap_head (text : List Char)
    (ps : List (List Char → Option (List Char))) :
    findActorAux text ps =
      (ps.filterMap (acceptedMatch is_likely_actor text)).head? := by
  induction ps with
  | nil => rfl
  | cons p ps ih =>
    simp only [findActorAux, List.filterMap_cons, acceptedMatch]
    cases hp : p text with
    | none => simpa using ih
    | some a =>
      by_cases h : is_likely_actor a
      · simp [h]
      · simpa [h] using ih

/-! ## Claim theorems -/

/-- C1 (counterexample): on the line
`version 2024-01-02 03:45:30 and later 14:23 fine` the first timestamp
pattern in registry order (`full_datetime`) matches `2024-01-02 03:45:30`
and the preceding-window filter rejects that match (because of `version`),
yet `_find_timestamp` does not return `none`: it falls back to the
`simple_time` pattern and returns `14:23`. -/
theorem findTimestamp_no_fallback_counterexample :
    searchFullDatetime (("version 2024-01-02 03:45:30 and later 14:23 fine").data)
        = some (("2024-01-02 03:45:30").data)
    ∧ is_likely_timestamp (("version 2024-01-02 03:45:30 and later 14:23 fine").data)
        (("2024-01-02 03:45:30").data) = false
    ∧ find_timestamp (("version 2024-01-02 03:45:30 and later 14:23 fine").data)
        = some (("14:23").data) := by
  refine ⟨by decide, by decide, by decide⟩

/-- C1 (amended): `_find_timestamp` does fall back across patterns after a
context-filter rejection: it returns the first pattern's accepted first
match in registry order — each pattern's first match is kept only if the
filter accepts it, and the overall result is the first such accepted match,
`none` only when every pattern either fails to match or has its first match
rejected. -/
theorem findTimestamp_first_accepted_pattern (text : List Char) :
    find_timestamp text =
      (TIMESTAMP_PATTERNS.filterMap (acceptedMatch (is_likely_timestamp text) text)).head? :=
  findTimestampAux_eq_filterMap_head text TIMESTAMP_PATTERNS

/-- C2 (counterexample): on the line `x14:23 and ratio 14:23` the actual
regex match of `simple_time` is the second `14:23`, at position 17 (the
first occurrence at position 1 is glued to a word character and is not a
match), and the 20 characters preceding position 17 contain the trigger
`ratio`; yet `_is_likely_timestamp` accepts the match, because its window is
anchored at `text.find`, i.e. at the first occurrence of the matched
substring.  So a trigger within the 20 characters before the match position
does not imply rejection. -/
theorem isLikelyTimestamp_window_counterexample :
    searchFullDatetime (("x14:23 and ratio 14:23").data) = none
    ∧ searchTimeWithSeconds (("x14:23 and ratio 14:23").data) = none
    ∧ searchPos matchSimpleTimeAt (("x14:23 and ratio 14:23").data) = some (17, 22)
    ∧ slice (("x14:23 and ratio 14:23").data) 17 22 = ("14:23").data
    ∧ containsTrigger (windowBefore (("x14:23 and ratio 14:23").data) 17) = true
    ∧ is_likely_timestamp (("x14:23 and ratio 14:23").data) (("14:23").data) = true
    ∧ find_timestamp (("x14:23 and ratio 14:23").data) = some (("14:23").data) := by
  refine ⟨by decide, by decide, by decide, by decide, by decide, by decide, by decide⟩

/-- C2 (amended): `_is_likely_timestamp` rejects a matched time expression
if and only if a trigger word (`ratio`, `version`, `scaled`) occurs,
case-folded, within the up-to-20 characters immediately preceding the FIRST
OCCURRENCE of the matched substring in the line (Python `text.find`), which
may lie before the actual match position; a trigger appearing only after
that first occurrence never suppresses the timestamp. -/
theorem isLikelyTimestamp_window_at_first_occurrence (text ts : List Char) :
    is_likely_timestamp text ts = false ↔
      ∃ i, strFind text ts = some i ∧ 0 < i
        ∧ containsTrigger (windowBefore text i) = true := by
  unfold is_likely_timestamp
  cases h : strFind text ts with
  | none => simp
  | some idx =>
    by_cases hpos : 0 < idx
    · simp [hpos]
    · simp [hpos]

/-- C3 (counterexample): on the line `@system Alice: fixed it` the first
actor pattern (`mention`) matches and captures `system`, which the
reserved-label filter rejects, yet `_find_actor` does not return `none`:
it falls back to the `name_colon` pattern and returns `Alice`. -/
theorem findActor_no_fallback_counterexample :
    searchMention (("@system Alice: fixed it").data) = some (("system").data)
    ∧ is_likely_actor (("system").data) = false
    ∧ find_actor (("@system Alice: fixed it").data) = some (("Alice").data) := by
  refine ⟨by decide, by decide, by decide⟩

/-- C4 (code evaluated at the failing input): for the input
`deployed\ndeployed` both trimmed lines are non-blank and contain the
remediation keyword `deployed`, yet `identify_actions` records only ONE
action: while scanning the second line's investigation category (which has
no match), the `actions[-1]['context'] == line` break test sees the action
recorded for the identical first line and aborts the line's scan before its
own keyword is reached. -/
theorem identifyActions_duplicate_line_loses_action :
    identify_actions (("deployed\ndeployed").data) =
      [{ action := ("deployed").data, category := ("remediation").data,
         context := ("deployed").data }]
    ∧ ((splitNl (pyStrip (("deployed\ndeployed").data))).filter
        (fun l => !(pyStrip l).isEmpty)).length = 2
    ∧ isSubstring (("deployed").data) (lowerStr (("deployed").data)) = true := by
  refine ⟨by decide, by decide, by decide⟩

/-- C3 (amended): `_find_actor` does fall back across patterns after a
filter rejection: it returns the first pattern's accepted captured name in
registry order (mention before name-colon), `none` only when every pattern
either fails to match or has its capture rejected by the label/TLD filter. -/
theorem findActor_first_accepted_pattern (text : List Char) :
    find_actor text =
      (ACTOR_PATTERNS.filterMap (acceptedMatch is_likely_actor text)).head? :=
  findActorAux_eq_filterMap_head text ACTOR_PATTERNS

theorem getLast?_append_single {α : Type} (l : List α) (a : α) :
    (l ++ [a]).getLast? = some a := by
  induction l with
  | nil => rfl
  | cons x xs ih =>
    rw [List.cons_append, List.getLast?_cons, ih]
    simp

theorem actionCatLoop_length_le (cats : List (List Char × List (List Char))) :
    ∀ (line ll : List Char) (actions : List Action),
      (actionCatLoop line ll cats actions).length ≤ actions.length + 1 := by
  induction cats with
  | nil =>
    intro line ll actions
    simp [actionCatLoop]
  | cons c rest ih =>
    intro line ll actions
    obtain ⟨cat, kws⟩ := c
    simp only [actionCatLoop]
    cases hf : kws.find? (fun k => isSubstring k ll) with
    | none =>
      by_cases hl : lastContextIs actions line
      · simp [hl]
      · simpa [hl] using ih line ll actions
    | some k =>
      have hlast :
          lastContextIs (actions ++ [{ action := k, category := cat, context := line }]) line
            = true := by
        simp [lastContextIs, getLast?_append_single]
      simp [hlast]

theorem identifyActions_fold_length (lines : List (List Char)) :
    ∀ actions : List Action,
      (lines.foldl
        (fun actions rawLine =>
          let line := pyStrip rawLine
          if line = [] then actions
          else actionCatLoop line (lowerStr line) ACTION_KEYWORDS actions)
        actions).length
      ≤ actions.length + (lines.filter (fun l => !(pyStrip l).isEmpty)).length := by
  induction lines with
  | nil => intro actions; simp
  | cons raw rest ih =>
    intro actions
    simp only [List.foldl_cons, List.filter_cons]
    by_cases hb : pyStrip raw = []
    · simpa [hb] using ih actions
    · have h1 := actionCatLoop_length_le ACTION_KEYWORDS (pyStrip raw)
        (lowerStr (pyStrip raw)) actions
      have h2 := ih (actionCatLoop (pyStrip raw) (lowerStr (pyStrip raw))
        ACTION_KEYWORDS actions)
      simp [hb]
      simp at h2
      omega

/-- C5: `identify_actions` emits at most one Action per non-blank line: the
total number of recorded actions is bounded by the number of non-blank
trimmed lines of the input (each line's category loop appends at most one
entry, and blank lines append none). -/
theorem identifyActions_at_most_one_per_line (text : List Char) :
    (identify_actions text).length ≤
      ((splitNl (pyStrip text)).filter (fun l => !(pyStrip l).isEmpty)).length := by
  simpa [identify_actions] using
    identifyActions_fold_length (splitNl (pyStrip text)) []

/-- C8: the `timeline`, `actions`, `entities` and `severity` fields of
`generate_summary(text)` are exactly the results of calling
`extract_timeline`, `identify_actions`, `extract_entities` and
`detect_severity` on the same text. -/
theorem generateSummary_roundtrip (text : List Char) :
    (generate_summary text).timeline = extract_timeline text
    ∧ (generate_summary text).actions = identify_actions text
    ∧ (generate_summary text).entities = extract_entities text
    ∧ (generate_summary text).severity = detect_severity text :=
  ⟨rfl, rfl, rfl, rfl⟩

/-- C9: when the `text` argument is missing or empty, `call_tool` returns
the structured error `{"error": "No text provided"}` without routing to any
engine operation (the error constructor is produced by the short-circuit
before the tool-name dispatch, so no engine-result constructor appears). -/
theorem callTool_missing_or_empty_text (name : String) (args : ToolArgs)
    (h : args.text = none ∨ args.text = some "") :
    call_tool name args = ToolResult.err ("No text provided") := by
  rcases h with h | h <;> simp [call_tool, h]

/-- Witness for C9 at concrete inputs: a missing `text` key. -/
theorem callTool_missing_or_empty_text_witness :
    call_tool ("generate_summary") { text := none } = ToolResult.err ("No text provided") :=
  callTool_missing_or_empty_text ("generate_summary") { text := none } (Or.inl rfl)

/-- C10: the word `scaled` is both a timestamp false-positive trigger and a
remediation keyword, so on the single line `scaled pods at 14:23` the
timeline extractor suppresses the time match and returns no events, while
the action identifier returns exactly one Action (`scaled`, remediation). -/
theorem scaled_line_timeline_vs_actions :
    extract_timeline (("scaled pods at 14:23").data) = []
    ∧ identify_actions (("scaled pods at 14:23").data) =
        [{ action := ("scaled").data, category := ("remediation").data,
           context := ("scaled pods at 14:23").data }] := by
  refine ⟨by decide, by decide⟩

/-- C6: `detect_severity` returns the highest-priority level with at least
one matched keyword, with that single level's matched keywords (in list
order) as its indicators, `unknown` with empty indicators when nothing
matches, and a confidence derived purely from the indicator count
(`≥3 → high`, `1–2 → medium`, `0 → low`): it coincides with the function
written directly from the spec's wording. -/
theorem detectSeverity_matches_spec (text : List Char) :
    detect_severity text = detect_severity_spec text := by
  unfold detect_severity detect_severity_spec
  simp only [SEVERITY_KEYWORDS, List.filterMap_cons, List.filterMap_nil]
  by_cases hc : severityMatches (lowerStr text) CRITICAL_KEYWORDS = [] <;>
    by_cases hh : severityMatches (lowerStr text) HIGH_KEYWORDS = [] <;>
      by_cases hm : severityMatches (lowerStr text) MEDIUM_KEYWORDS = [] <;>
        by_cases hl : severityMatches (lowerStr text) LOW_KEYWORDS = [] <;>
          simp [hc, hh, hm, hl, confFromCount]

theorem mem_keepFirsts {α : Type} [DecidableEq α] {a : α} :
    ∀ {l : List α}, a ∈ keepFirsts l → a ∈ l := by
  intro l
  induction l using keepFirsts.induct with
  | case1 => intro h; rw [keepFirsts] at h; exact absurd h (List.not_mem_nil a)
  | case2 x xs ih =>
    intro h
    rw [keepFirsts] at h
    rcases List.mem_cons.mp h with h | h
    · exact h ▸ List.mem_cons_self _ _
    · exact List.mem_cons_of_mem _ ((List.mem_filter.mp (ih h)).1)

theorem nodup_keepFirsts {α : Type} [DecidableEq α] :
    ∀ (l : List α), (keepFirsts l).Nodup := by
  intro l
  induction l using keepFirsts.induct with
  | case1 => rw [keepFirsts]; exact List.nodup_nil
  | case2 x xs ih =>
    rw [keepFirsts, List.nodup_cons]
    refine ⟨fun hmem => ?_, ih⟩
    have := (List.mem_filter.mp (mem_keepFirsts hmem)).2
    simp at this

theorem dedup_foldl_eq :
    ∀ (l acc : List (List Char)),
      l.foldl (fun acc x => if x ∉ acc then acc ++ [x] else acc) acc
        = acc ++ keepFirsts (l.filter (fun x => decide (x ∉ acc))) := by
  intro l
  induction l with
  | nil => intro acc; simp [keepFirsts]
  | cons x xs ih =>
    intro acc
    by_cases hx : x ∈ acc
    · simp only [List.foldl_cons]
      rw [if_neg (not_not_intro hx), ih acc]
      have hdrop : (x :: xs).filter (fun y => decide (y ∉ acc))
          = xs.filter (fun y => decide (y ∉ acc)) := by
        simp [List.filter_cons, hx]
      rw [hdrop]
    · simp only [List.foldl_cons]
      rw [if_pos hx, ih (acc ++ [x])]
      have hcons : (x :: xs).filter (fun y => decide (y ∉ acc))
          = x :: xs.filter (fun y => decide (y ∉ acc)) := by
        simp [List.filter_cons, hx]
      rw [hcons, keepFirsts]
      have hfilter :
          (xs.filter (fun y => decide (y ∉ acc))).filter (fun y => decide (y ≠ x))
            = xs.filter (fun y => decide (y ∉ acc ++ [x])) := by
        rw [List.filter_filter]
        refine List.filter_congr fun y _ => ?_
        by_cases h1 : y = x
        · simp [h1]
        · by_cases h2 : y ∈ acc <;> simp [h1, h2]
      rw [hfilter]
      simp

theorem filter_dedup_foldl_eq (q : List Char → Bool) :
    ∀ (l acc : List (List Char)),
      l.foldl (fun acc x => if q x ∧ x ∉ acc then acc ++ [x] else acc) acc
        = (l.filter q).foldl (fun acc x => if x ∉ acc then acc ++ [x] else acc) acc := by
  intro l
  induction l with
  | nil => intro acc; simp
  | cons x xs ih =>
    intro acc
    by_cases hq : q x = true
    · have hkeep : (x :: xs).filter q = x :: xs.filter q := by
        simp [List.filter_cons, hq]
      rw [hkeep]
      simp only [List.foldl_cons]
      by_cases hx : x ∈ acc
      · rw [if_neg (fun h => h.2 hx), if_neg (not_not_intro hx)]
        exact ih acc
      · rw [if_pos (And.intro hq hx), if_pos hx]
        exact ih (acc ++ [x])
    · have hdrop : (x :: xs).filter q = xs.filter q := by
        simp [List.filter_cons, hq]
      rw [hdrop]
      simp only [List.foldl_cons]
      rw [if_neg (fun h => absurd h.1 (by simp [hq]))]
      exact ih acc

theorem extractEntities_services_eq (text : List Char) :
    (extract_entities text).services = keepFirsts (serviceScan (lowerStr text)) := by
  show (serviceScan (lowerStr text)).foldl
      (fun acc s => if s ∉ acc then acc ++ [s] else acc) [] = _
  rw [dedup_foldl_eq]
  have : (serviceScan (lowerStr text)).filter (fun x => decide (x ∉ ([] : List (List Char))))
      = serviceScan (lowerStr text) := by
    rw [show (fun x : List Char => decide (x ∉ ([] : List (List Char))))
        = fun _ => true by funext x; simp, List.filter_true]
  rw [this, List.nil_append]

theorem extractEntities_ips_eq (text : List Char) :
    (extract_entities text).ips = keepFirsts ((ipScan text).filter is_valid_ip) := by
  show (ipScan text).foldl
      (fun acc ip => if is_valid_ip ip ∧ ip ∉ acc then acc ++ [ip] else acc) [] = _
  rw [filter_dedup_foldl_eq, dedup_foldl_eq]
  have : ((ipScan text).filter is_valid_ip).filter
        (fun x => decide (x ∉ ([] : List (List Char))))
      = (ipScan text).filter is_valid_ip := by
    rw [show (fun x : List Char => decide (x ∉ ([] : List (List Char))))
        = fun _ => true by funext x; simp, List.filter_true]
  rw [this, List.nil_append]

theorem extractEntities_domains_eq (text : List Char) :
    (extract_entities text).domains
      = keepFirsts ((domainScan (lowerStr text)).filter is_likely_domain) := by
  show (domainScan (lowerStr text)).foldl
      (fun acc d => if is_likely_domain d ∧ d ∉ acc then acc ++ [d] else acc) [] = _
  rw [filter_dedup_foldl_eq, dedup_foldl_eq]
  have : ((domainScan (lowerStr text)).filter is_likely_domain).filter
        (fun x => decide (x ∉ ([] : List (List Char))))
      = (domainScan (lowerStr text)).filter is_likely_domain := by
    rw [show (fun x : List Char => decide (x ∉ ([] : List (List Char))))
        = fun _ => true by funext x; simp, List.filter_true]
  rw [this, List.nil_append]

theorem if_opt_eq_some {β : Type} {c : Prop} [Decidable c] {x : Option β} {e : β}
    (h : (if c then x else none) = some e) : c ∧ x = some e := by
  by_cases hc : c
  · exact ⟨hc, by rwa [if_pos hc] at h⟩
  · rw [if_neg hc] at h
    cases h

theorem take_all_of_le_takeWhile {p : Char → Bool} :
    ∀ (l : List Char) (L : Nat), L ≤ (l.takeWhile p).length → (l.take L).all p = true := by
  intro l
  induction l with
  | nil => intro L _; simp
  | cons c t ih =>
    intro L hL
    cases L with
    | zero => simp
    | succ L =>
      by_cases hp : p c = true
      · rw [List.takeWhile_cons, if_pos hp] at hL
        simp only [List.length_cons, Nat.succ_le_succ_iff] at hL
        rw [List.take_succ_cons, List.all_cons, hp, Bool.true_and]
        exact ih L hL
      · rw [List.takeWhile_cons, if_neg hp] at hL
        simp at hL

theorem slice_all_of_le_runLen {p : Char → Bool} (cs : List Char) (i L : Nat)
    (h : L ≤ runLen p cs i) : (slice cs i (i + L)).all p = true := by
  unfold slice
  have : i + L - i = L := by omega
  rw [this]
  exact take_all_of_le_takeWhile (cs.drop i) L h

theorem slice_split (cs : List Char) {i m j : Nat} (him : i ≤ m) (hmj : m ≤ j) :
    slice cs i j = slice cs i m ++ slice cs m j := by
  unfold slice
  have hsum : j - i = (m - i) + (j - m) := by omega
  rw [hsum, List.take_add, List.drop_drop]
  have hmi : i + (m - i) = m := by omega
  rw [hmi]

theorem charAt_dot_of_optHolds {cs : List Char} {q : Nat}
    (h : optHolds (· == '.') (charAt cs q) = true) : charAt cs q = some '.' := by
  cases hc : charAt cs q with
  | none => rw [hc] at h; simp [optHolds] at h
  | some c =>
    rw [hc] at h
    simp only [optHolds, beq_iff_eq] at h
    rw [h]

theorem slice_singleton {cs : List Char} {m : Nat} {c : Char}
    (h : charAt cs m = some c) : slice cs m (m + 1) = [c] := by
  unfold slice
  have h1 : m + 1 - m = 1 := by omega
  rw [h1]
  unfold charAt at h
  have h' : (cs.drop m)[0]? = some c := by
    rw [List.getElem?_drop]
    simpa using h
  cases hd : cs.drop m with
  | nil => rw [hd] at h'; simp at h'
  | cons d t =>
    rw [hd] at h'
    simp only [List.getElem?_cons_zero, Option.some.injEq] at h'
    rw [h']
    rfl

theorem all_digit_no_dot {A : List Char} (h : A.all Char.isDigit = true) :
    A.all (fun c => !(c == '.')) = true := by
  rw [List.all_eq_true] at h ⊢
  intro c hc
  have hd := h c hc
  simp only [Bool.not_eq_true', beq_eq_false_iff_ne]
  intro heq
  rw [heq] at hd
  simp [Char.isDigit] at hd

theorem splitDot_append_dot {A : List Char} (B : List Char)
    (hA : A.all (fun c => !(c == '.')) = true) :
    splitDot (A ++ '.' :: B) = A :: splitDot B := by
  induction A with
  | nil => simp [splitDot]
  | cons a A ih =>
    simp only [List.all_cons, Bool.and_eq_true, Bool.not_eq_true'] at hA
    rw [List.cons_append, splitDot, if_neg (by simp [hA.1]), ih (by simpa using hA.2)]

theorem splitDot_no_dot {A : List Char} (hA : A.all (fun c => !(c == '.')) = true) :
    splitDot A = [A] := by
  induction A with
  | nil => rfl
  | cons a A ih =>
    simp only [List.all_cons, Bool.and_eq_true, Bool.not_eq_true'] at hA
    rw [splitDot, if_neg (by simp [hA.1]), ih (by simpa using hA.2)]

theorem ipGroup_spec {cs : List Char} {p e : Nat} {cont : Nat → Option Nat}
    (h : ipGroup cs p cont = some e) :
    ∃ L, 1 ≤ L ∧ L ≤ 3 ∧ L ≤ runLen Char.isDigit cs p ∧ cont (p + L) = some e := by
  unfold ipGroup at h
  cases h3 : (if 3 ≤ runLen Char.isDigit cs p then cont (p + 3) else none) with
  | some e3 =>
    rw [h3] at h
    dsimp only at h
    obtain ⟨hc, hx⟩ := if_opt_eq_some h3
    exact ⟨3, by omega, by omega, hc, by rw [hx, Option.some.inj h]⟩
  | none =>
    rw [h3] at h
    dsimp only at h
    cases h2 : (if 2 ≤ runLen Char.isDigit cs p then cont (p + 2) else none) with
    | some e2 =>
      rw [h2] at h
      dsimp only at h
      obtain ⟨hc, hx⟩ := if_opt_eq_some h2
      exact ⟨2, by omega, by omega, hc, by rw [hx, Option.some.inj h]⟩
    | none =>
      rw [h2] at h
      dsimp only at h
      obtain ⟨hc, hx⟩ := if_opt_eq_some h
      exact ⟨1, by omega, by omega, hc, hx⟩

theorem matchIpAt_splitDot {cs : List Char} {i e : Nat}
    (h : matchIpAt cs i = some e) : (splitDot (slice cs i e)).length = 4 := by
  unfold matchIpAt at h
  obtain ⟨-, h⟩ := if_opt_eq_some h
  obtain ⟨L1, hL1a, -, hR1, h⟩ := ipGroup_spec h
  obtain ⟨hdot1, h⟩ := if_opt_eq_some h
  obtain ⟨L2, hL2a, -, hR2, h⟩ := ipGroup_spec h
  obtain ⟨hdot2, h⟩ := if_opt_eq_some h
  obtain ⟨L3, hL3a, -, hR3, h⟩ := ipGroup_spec h
  obtain ⟨hdot3, h⟩ := if_opt_eq_some h
  obtain ⟨L4, hL4a, -, hR4, h⟩ := ipGroup_spec h
  obtain ⟨-, h⟩ := if_opt_eq_some h
  have he : e = i + L1 + 1 + L2 + 1 + L3 + 1 + L4 := (Option.some.inj h).symm
  subst he
  have hd1 := charAt_dot_of_optHolds hdot1
  have hd2 := charAt_dot_of_optHolds hdot2
  have hd3 := charAt_dot_of_optHolds hdot3
  have hG1 := slice_all_of_le_runLen cs i L1 hR1
  have hG2 := slice_all_of_le_runLen cs (i + L1 + 1) L2 hR2
  have hG3 := slice_all_of_le_runLen cs (i + L1 + 1 + L2 + 1) L3 hR3
  have hG4 := slice_all_of_le_runLen cs (i + L1 + 1 + L2 + 1 + L3 + 1) L4 hR4
  rw [slice_split cs (by omega : i ≤ i + L1)
        (by omega : i + L1 ≤ i + L1 + 1 + L2 + 1 + L3 + 1 + L4),
      slice_split cs (by omega : i + L1 ≤ i + L1 + 1)
        (by omega : i + L1 + 1 ≤ i + L1 + 1 + L2 + 1 + L3 + 1 + L4),
      slice_split cs (by omega : i + L1 + 1 ≤ i + L1 + 1 + L2)
        (by omega : i + L1 + 1 + L2 ≤ i + L1 + 1 + L2 + 1 + L3 + 1 + L4),
      slice_split cs (by omega : i + L1 + 1 + L2 ≤ i + L1 + 1 + L2 + 1)
        (by omega : i + L1 + 1 + L2 + 1 ≤ i + L1 + 1 + L2 + 1 + L3 + 1 + L4),
      slice_split cs (by omega : i + L1 + 1 + L2 + 1 ≤ i + L1 + 1 + L2 + 1 + L3)
        (by omega : i + L1 + 1 + L2 + 1 + L3 ≤ i + L1 + 1 + L2 + 1 + L3 + 1 + L4),
      slice_split cs (by omega : i + L1 + 1 + L2 + 1 + L3 ≤ i + L1 + 1 + L2 + 1 + L3 + 1)
        (by omega : i + L1 + 1 + L2 + 1 + L3 + 1 ≤ i + L1 + 1 + L2 + 1 + L3 + 1 + L4)]
  rw [slice_singleton hd1, slice_singleton hd2, slice_singleton hd3]
  rw [List.singleton_append, List.singleton_append, List.singleton_append]
  rw [splitDot_append_dot _ (all_digit_no_dot (by simpa using hG1))]
  rw [splitDot_append_dot _ (all_digit_no_dot (by simpa using hG2))]
  rw [splitDot_append_dot _ (all_digit_no_dot (by simpa using hG3))]
  rw [splitDot_no_dot (all_digit_no_dot (by simpa using hG4))]
  rfl

theorem finditer_go_mem (matchAt : List Char → Nat → Option Nat) (cs : List Char) :
    ∀ (fuel i : Nat) (pr : Nat × Nat),
      pr ∈ finditer.go matchAt cs i fuel → matchAt cs pr.1 = some pr.2 := by
  intro fuel
  induction fuel with
  | zero =>
    intro i pr h
    rw [finditer.go] at h
    exact absurd h (List.not_mem_nil pr)
  | succ fuel ih =>
    intro i pr h
    rw [finditer.go] at h
    by_cases hi : i ≤ cs.length
    · rw [if_pos hi] at h
      cases hm : matchAt cs i with
      | some e =>
        rw [hm] at h
        rcases List.mem_cons.mp h with h | h
        · subst h; exact hm
        · exact ih _ pr h
      | none =>
        rw [hm] at h
        exact ih _ pr h
    · rw [if_neg hi] at h
      exact absurd h (List.not_mem_nil pr)

theorem ipScan_shape (cs : List Char) :
    ∀ s ∈ ipScan cs, (splitDot s).length = 4 := by
  intro s hs
  unfold ipScan at hs
  rw [List.mem_map] at hs
  obtain ⟨pr, hpr, rfl⟩ := hs
  exact matchIpAt_splitDot (finditer_go_mem matchIpAt cs _ _ pr hpr)

/-- C7: each of the three lists returned by `extract_entities` is exactly
the first-occurrence deduplication of its own (filtered) scan sequence —
hence duplicate-free and ordered by first occurrence within that scan — and
every reported IP string consists of four dot-separated groups that each
parse as an integer in `[0, 255]`. -/
theorem extractEntities_nodup_order_valid_ips (text : List Char) :
    (extract_entities text).services = keepFirsts (serviceScan (lowerStr text))
    ∧ (extract_entities text).ips = keepFirsts ((ipScan text).filter is_valid_ip)
    ∧ (extract_entities text).domains
        = keepFirsts ((domainScan (lowerStr text)).filter is_likely_domain)
    ∧ (extract_entities text).services.Nodup
    ∧ (extract_entities text).ips.Nodup
    ∧ (extract_entities text).domains.Nodup
    ∧ (extract_entities text).ips.all ipWellFormed = true := by
  refine ⟨extractEntities_services_eq text, extractEntities_ips_eq text,
    extractEntities_domains_eq text, ?_, ?_, ?_, ?_⟩
  · rw [extractEntities_services_eq]; exact nodup_keepFirsts _
  · rw [extractEntities_ips_eq]; exact nodup_keepFirsts _
  · rw [extractEntities_domains_eq]; exact nodup_keepFirsts _
  · rw [extractEntities_ips_eq, List.all_eq_true]
    intro ip hip
    obtain ⟨hscan, hvalid⟩ := List.mem_filter.mp (mem_keepFirsts hip)
    unfold ipWellFormed
    rw [Bool.and_eq_true]
    exact ⟨by simp [ipScan_shape text ip hscan], hvalid⟩

end IncidentTimeline
